import Mathlib

/-!
# Verification of the s5-js registry entry subsystem

A shallow embedding of the registry-entry subsystem of the `s5-js` client
library (`src/client.ts` / `src/methods/registry.ts`): the signed,
monotonic-revision mutable-pointer protocol (`getEntry`, `createEntry`,
`publishEntry`, `subscribeToEntry`) together with the transport/text base64url
field codec and the binary subscription-frame codec.

Bytes are modelled as `List Nat` (each element intended `< 256`); fallible
operations return `Option` / `Except`; network effects are made explicit by
returning the list of network calls an operation performs.  The Ed25519
key/signature adapter and the binary entry codec live in the external
collaborator library `@lumeweb/libs5` and are therefore modelled from the
spec (abstractly for the crypto, concretely for the frame layout).
-/

namespace S5

/-- A byte string: each element is intended to be `< 256`. -/
abbrev Bytes := List Nat

/-- Every element of the byte string is an actual byte (`< 256`). -/
def ValidBytes (bs : Bytes) : Prop := ∀ b ∈ bs, b < 256

instance : DecidablePred ValidBytes := fun bs =>
  inferInstanceAs (Decidable (∀ b ∈ bs, b < 256))

/-! ## base64url text codec

`src/utils/encoding.ts` defines
`base64urlEncode = (d) => base64url.encode(d).substring(1)` and
`base64urlDecode = (d) => base64url.decode("u" + d)`: the multibase prefix
`u` added by the `multiformats` base64url codec is stripped on encode and
re-added on decode, so the composition is plain RFC 4648 §5 base64url without
padding.  The underlying alphabet engine is the external `multiformats`
package; it is modelled from the spec: a padding-free, URL-safe base64
alphabet where decoding rejects invalid characters, an impossible leftover
length (≡ 1 mod 4) and nonzero trailing padding bits. -/

/-- The URL-safe base64 alphabet, `A`–`Z`, `a`–`z`, `0`–`9`, `-`, `_`. -/
def b64Alphabet : List Char :=
  "ABCDEFGHIJKLMNOPQRSTUVWXYZabcdefghijklmnopqrstuvwxyz0123456789-_".toList

/-- Character for a 6-bit value. -/
def b64Char (n : Nat) : Char := b64Alphabet.getD n 'A'

/-- Value (6-bit) of an alphabet character; `none` for characters outside the
alphabet. -/
def b64Val (c : Char) : Option Nat := b64Alphabet.indexOf? c

/-- Encode a byte string into 6-bit values, three bytes at a time; a final
partial group of one or two bytes yields two or three values whose unused
low bits are zero (the stripped padding). -/
def encodeChunks : Bytes → List Nat
  | [] => []
  | [b1] => [b1 / 4, b1 % 4 * 16]
  | [b1, b2] => [b1 / 4, b1 % 4 * 16 + b2 / 16, b2 % 16 * 4]
  | b1 :: b2 :: b3 :: rest =>
      b1 / 4 :: (b1 % 4 * 16 + b2 / 16) :: (b2 % 16 * 4 + b3 / 64) :: b3 % 64 ::
        encodeChunks rest

/-- Decode a list of 6-bit values back into bytes, four values at a time.
A leftover single value is rejected, as are nonzero trailing padding bits. -/
def decodeChunks : List Nat → Option Bytes
  | [] => some []
  | [_] => none
  | [c1, c2] => if c2 % 16 = 0 then some [c1 * 4 + c2 / 16] else none
  | [c1, c2, c3] =>
      if c3 % 4 = 0 then some [c1 * 4 + c2 / 16, c2 % 16 * 16 + c3 / 4] else none
  | c1 :: c2 :: c3 :: c4 :: rest =>
      (decodeChunks rest).map fun bs =>
        (c1 * 4 + c2 / 16) :: (c2 % 16 * 16 + c3 / 4) :: (c3 % 4 * 64 + c4) :: bs

/-- Look up every character of the text in the alphabet; `none` if any
character is invalid. -/
def b64Vals : List Char → Option (List Nat)
  | [] => some []
  | c :: cs =>
      match b64Val c, b64Vals cs with
      | some v, some vs => some (v :: vs)
      | _, _ => none

/-- The function `base64urlEncode` of `src/utils/encoding.ts`: padding-free URL-safe
base64 text of a byte string (the multibase `u` prefix is stripped). -/
def base64urlEncode (d : Bytes) : List Char := (encodeChunks d).map b64Char

/-- The function `base64urlDecode` of `src/utils/encoding.ts`: decode padding-free
URL-safe base64 text, `none` on malformed input. -/
def base64urlDecode (s : List Char) : Option Bytes := (b64Vals s).bind decodeChunks

/-! ### Round-trip of the base64url codec -/

theorem b64Val_b64Char {n : Nat} (h : n < 64) : b64Val (b64Char n) = some n := by
  interval_cases n <;> rfl

theorem encodeChunks_lt (bs : Bytes) (h : ValidBytes bs) :
    ∀ v ∈ encodeChunks bs, v < 64 := by
  induction bs using encodeChunks.induct with
  | case1 => simp [encodeChunks]
  | case2 b1 =>
      have hb1 : b1 < 256 := h b1 (by simp)
      simp only [encodeChunks, List.mem_cons, List.not_mem_nil, or_false]
      rintro v (rfl | rfl) <;> omega
  | case3 b1 b2 =>
      have hb1 : b1 < 256 := h b1 (by simp)
      have hb2 : b2 < 256 := h b2 (by simp)
      simp only [encodeChunks, List.mem_cons, List.not_mem_nil, or_false]
      rintro v (rfl | rfl | rfl) <;> omega
  | case4 b1 b2 b3 rest ih =>
      have hb1 : b1 < 256 := h b1 (by simp)
      have hb2 : b2 < 256 := h b2 (by simp)
      have hb3 : b3 < 256 := h b3 (by simp)
      have hrest : ValidBytes rest := fun b hb => h b (by simp [hb])
      simp only [encodeChunks, List.mem_cons]
      rintro v (rfl | rfl | rfl | rfl | hv)
      · omega
      · omega
      · omega
      · omega
      · exact ih hrest v hv

theorem b64Vals_map_b64Char (vs : List Nat) (h : ∀ v ∈ vs, v < 64) :
    b64Vals (vs.map b64Char) = some vs := by
  induction vs with
  | nil => rfl
  | cons v vs ih =>
      have hv : v < 64 := h v (by simp)
      have hvs : ∀ w ∈ vs, w < 64 := fun w hw => h w (by simp [hw])
      simp only [List.map_cons, b64Vals, b64Val_b64Char hv, ih hvs]

theorem decodeChunks_encodeChunks (bs : Bytes) (h : ValidBytes bs) :
    decodeChunks (encodeChunks bs) = some bs := by
  induction bs using encodeChunks.induct with
  | case1 => rfl
  | case2 b1 =>
      have hb1 : b1 < 256 := h b1 (by simp)
      simp only [encodeChunks, decodeChunks]
      rw [if_pos (by omega)]
      congr 1
      congr 1
      omega
  | case3 b1 b2 =>
      have hb1 : b1 < 256 := h b1 (by simp)
      have hb2 : b2 < 256 := h b2 (by simp)
      simp only [encodeChunks, decodeChunks]
      rw [if_pos (by omega)]
      congr 1
      have e1 : b1 / 4 * 4 + (b1 % 4 * 16 + b2 / 16) / 16 = b1 := by omega
      have e2 : (b1 % 4 * 16 + b2 / 16) % 16 * 16 + b2 % 16 * 4 / 4 = b2 := by omega
      rw [e1, e2]
  | case4 b1 b2 b3 rest ih =>
      have hb1 : b1 < 256 := h b1 (by simp)
      have hb2 : b2 < 256 := h b2 (by simp)
      have hb3 : b3 < 256 := h b3 (by simp)
      have hrest : ValidBytes rest := fun b hb => h b (by simp [hb])
      show decodeChunks (_ :: _ :: _ :: _ :: encodeChunks rest) = _
      rw [decodeChunks, ih hrest, Option.map_some']
      have e1 : b1 / 4 * 4 + (b1 % 4 * 16 + b2 / 16) / 16 = b1 := by omega
      have e2 : (b1 % 4 * 16 + b2 / 16) % 16 * 16 + (b2 % 16 * 4 + b3 / 64) / 4 = b2 := by
        omega
      have e3 : (b2 % 16 * 4 + b3 / 64) % 4 * 64 + b3 % 64 = b3 := by omega
      rw [e1, e2, e3]

theorem base64url_decode_encode (x : Bytes) (h : ValidBytes x) :
    base64urlDecode (base64urlEncode x) = some x := by
  unfold base64urlDecode base64urlEncode
  rw [b64Vals_map_b64Char _ (encodeChunks_lt x h)]
  exact decodeChunks_encodeChunks x h

/-! ## Data model

`SignedRegistryEntry` (from `@lumeweb/libs5`, as used throughout
`src/client.ts` and `src/methods/registry.ts`): owner public key `pk`
(tagged bytes), `revision`, opaque `data` payload and the detached
`signature` over the canonical (`data`, `revision`) encoding. -/

structure SignedRegistryEntry where
  pk : Bytes
  revision : Nat
  data : Bytes
  signature : Bytes
deriving DecidableEq, Repr

/-- All binary fields of the entry are genuine byte strings. -/
def SignedRegistryEntry.Valid (e : SignedRegistryEntry) : Prop :=
  ValidBytes e.pk ∧ ValidBytes e.data ∧ ValidBytes e.signature

instance : DecidablePred SignedRegistryEntry.Valid := fun e =>
  inferInstanceAs (Decidable (ValidBytes e.pk ∧ ValidBytes e.data ∧ ValidBytes e.signature))

/-- The `RegistrySetRequest` type (`src/generated`): the JSON body `{pk, revision,
data, signature}` POSTed to the portal's write endpoint, with each binary
field as padding-free base64url text. -/
structure RegistrySetRequest where
  pk : List Char
  revision : Nat
  data : List Char
  signature : List Char
deriving DecidableEq, Repr

/-- The field encoding performed by `publishEntry`
(`src/client.ts`, the body handed to `postS5Registry`). -/
def encodeRegistryFields (e : SignedRegistryEntry) : RegistrySetRequest :=
  { pk := base64urlEncode e.pk
    revision := e.revision
    data := base64urlEncode e.data
    signature := base64urlEncode e.signature }

/-- The field decoding performed by `getEntry` (`src/client.ts`): base64url-
decode `pk`, `data` and `signature` of the portal's response and carry
`revision` over as a plain integer; `none` if any field is malformed. -/
def decodeRegistryFields (r : RegistrySetRequest) : Option SignedRegistryEntry :=
  match base64urlDecode r.pk, base64urlDecode r.data, base64urlDecode r.signature with
  | some pk, some data, some signature =>
      some { pk := pk, revision := r.revision, data := data, signature := signature }
  | _, _, _ => none

/-! ## Key/Signature adapter

Modelled from the spec: the Ed25519 Key/Signature Adapter (§2, §4.2) lives
in the external collaborator `@lumeweb/libs5`
(`createKeyPair`, `signRegistryEntry`, `verifyRegistryEntry`); it is not part
of this repository.  It is abstracted as a structure: `createKeyPair`
derives a keypair from a secret seed, `sign` produces the detached signature
of the canonical (`data`, `revision`) encoding under a keypair, and `verify`
checks a signed entry's signature against the entry's own `pk`.  The
registry protocol below is parameterised over any such adapter. -/

structure KeyPairEd25519 where
  publicKey : Bytes
deriving DecidableEq, Repr

structure RegistryCrypto where
  createKeyPair : Bytes → KeyPairEd25519
  sign : KeyPairEd25519 → Bytes → Nat → Bytes
  verify : SignedRegistryEntry → Bool

/-- The function `signRegistryEntry` of `@lumeweb/libs5` as called by `createEntry`:
builds the signed entry `{pk := kp.publicKey, revision, data, signature}`. -/
def signRegistryEntry (c : RegistryCrypto) (kp : KeyPairEd25519)
    (data : Bytes) (revision : Nat) : SignedRegistryEntry :=
  { pk := kp.publicKey, revision := revision, data := data
    signature := c.sign kp data revision }

/-- The first step of `createEntry`: an argument of type
`Uint8Array | KeyPairEd25519` is turned into a keypair, deriving it from the
seed when only a secret key was given. -/
def resolveKeyPair (c : RegistryCrypto) : Bytes ⊕ KeyPairEd25519 → KeyPairEd25519
  | .inl seed => c.createKeyPair seed
  | .inr kp => kp

/-! ## Registry client protocol

The transport is made explicit: the portal's reply to the one GET a call
performs is an input (`GetRegistryResult`), and every operation returns,
next to its result, the list of network calls it performed (`NetCall`), so
that "makes no network call" claims are statable. -/

/-- The portal's reply to `getS5Registry`: either the decoded JSON body
`{pk, revision, data, signature}`, or a request error carrying the HTTP
response status when one exists (`AxiosError.response?.status`). -/
inductive GetRegistryResult where
  | ok (body : RegistrySetRequest)
  | err (status : Option Nat)
deriving DecidableEq, Repr

/-- Error outcomes of the registry operations.  `validationError` covers the
`throwValidationError` calls: `invalidEntry` for a signature-verification
failure, `keyMismatch` for a fetched entry owned by another key.
`malformed` is a field-decoding failure; `transport` re-raises a non-404
request error. -/
inductive RegistryError where
  | invalidEntry
  | keyMismatch
  | malformed
  | transport (status : Option Nat)
deriving DecidableEq, Repr

/-- A network call performed against the portal. -/
inductive NetCall where
  | get (pk : List Char)
  | post (req : RegistrySetRequest)
deriving DecidableEq, Repr

/-- The method `getEntry` (`src/client.ts` lines 412–455): GET the portal's current
entry for `publicKey`; on a 404 reply return the absent value `none`;
otherwise decode the body's fields and verify the resulting entry, failing
with `invalidEntry` when verification fails; any other request error is
re-raised unchanged. -/
def getEntry (c : RegistryCrypto) (publicKey : Bytes) (resp : GetRegistryResult) :
    Except RegistryError (Option SignedRegistryEntry) × List NetCall :=
  let calls := [NetCall.get (base64urlEncode publicKey)]
  match resp with
  | .err status =>
      if status = some 404 then (.ok none, calls) else (.error (.transport status), calls)
  | .ok body =>
      match decodeRegistryFields body with
      | none => (.error .malformed, calls)
      | some signedEntry =>
          if c.verify signedEntry then (.ok (some signedEntry), calls)
          else (.error .invalidEntry, calls)

/-- The method `publishEntry` (`src/client.ts` lines 330–359): reject a signed entry
that does not verify with a validation error before any network call;
otherwise POST its base64url field encoding to the portal's write
endpoint. -/
def publishEntry (c : RegistryCrypto) (signedEntry : SignedRegistryEntry) :
    Except RegistryError Unit × List NetCall :=
  if c.verify signedEntry then
    (.ok (), [NetCall.post (encodeRegistryFields signedEntry)])
  else
    (.error .invalidEntry, [])

/-- The method `createEntry` (`src/client.ts` lines 361–410): derive the keypair, fetch
the existing entry; if absent, start fresh at the caller-supplied initial
revision (`targetData` is `cid.toRegistryEntry()`); reject a fetched entry
owned by a different key; if the fetched data already equals the target,
return the fetched entry unchanged without publishing; otherwise bump the
revision, sign and publish. -/
def createEntry (c : RegistryCrypto) (sk : Bytes ⊕ KeyPairEd25519)
    (targetData : Bytes) (revision : Nat := 0) (resp : GetRegistryResult) :
    Except RegistryError SignedRegistryEntry × List NetCall :=
  let kp := resolveKeyPair c sk
  match getEntry c kp.publicKey resp with
  | (.error e, getCalls) => (.error e, getCalls)
  | (.ok fetched, getCalls) =>
      match fetched with
      | none =>
          let signed := signRegistryEntry c kp targetData revision
          match publishEntry c signed with
          | (.error e, pubCalls) => (.error e, getCalls ++ pubCalls)
          | (.ok _, pubCalls) => (.ok signed, getCalls ++ pubCalls)
      | some entry =>
          if kp.publicKey = entry.pk then
            if entry.data = targetData then (.ok entry, getCalls)
            else
              let signed := signRegistryEntry c kp targetData (entry.revision + 1)
              match publishEntry c signed with
              | (.error e, pubCalls) => (.error e, getCalls ++ pubCalls)
              | (.ok _, pubCalls) => (.ok signed, getCalls ++ pubCalls)
          else (.error .keyMismatch, getCalls)

/-! ## Subscription channel

`subscribeToEntry` (`src/client.ts` lines 279–328) opens a WebSocket and
returns `{listen, end}`; `listen(cb)` registers a message handler that
decodes each inbound binary frame with `deserializeRegistryEntry` and hands
the result to `cb`, one invocation per frame, in arrival order. -/

/-- Modelled from the spec: the compact variable-length integer of the
Entry Codec's binary form (§4.1), low 7 bits first, high bit marking a
continuation; `@lumeweb/libs5` supplies the actual implementation, which is
not part of this repository.  Returns the value and the unconsumed tail. -/
def parseVarint : Bytes → Option (Nat × Bytes)
  | [] => none
  | b :: rest =>
      if b < 128 then some (b, rest)
      else (parseVarint rest).map fun vr => (b % 128 + 128 * vr.1, vr.2)

/-- Modelled from the spec: `deserializeRegistryEntry` of `@lumeweb/libs5`
(not part of this repository), decoding the binary wire form of §4.1/§6: a
discriminant byte for the registry-entry record kind, the 33-byte tagged
public key, the revision as a compact varint, the length-prefixed `data`,
and the fixed-length 64-byte signature; `none` on any layout mismatch. -/
def deserializeRegistryEntry (frame : Bytes) : Option SignedRegistryEntry :=
  match frame with
  | [] => none
  | disc :: rest =>
      if disc = 7 ∧ 33 ≤ rest.length then
        match parseVarint (rest.drop 33) with
        | none => none
        | some (rev, rest2) =>
            match rest2 with
            | [] => none
            | len :: rest3 =>
                if rest3.length = len + 64 then
                  some { pk := rest.take 33, revision := rev
                         data := rest3.take len, signature := rest3.drop len }
                else none
      else none

/-- The message handler `listen(cb)` registers (`src/client.ts` lines
313–318): decode the frame and invoke `cb` on the entry; a frame the codec
rejects makes the handler raise instead of invoking `cb`. -/
def listenHandler (cb : SignedRegistryEntry → α) (frame : Bytes) : Option α :=
  (deserializeRegistryEntry frame).map cb

/-- The socket's event dispatch, modelled from the spec: inbound frames are
delivered to the registered handler one at a time in arrival order; a
handler that raises aborts the delivery stream. Returns the list of handler
results. -/
def dispatchMessages (h : Bytes → Option α) : List Bytes → Option (List α)
  | [] => some []
  | f :: fs =>
      match h f with
      | none => none
      | some a => (dispatchMessages h fs).map (a :: ·)

/-- Decode a whole sequence of inbound frames: `none` as soon as one frame
is rejected by the binary codec. -/
def decodeFrames : List Bytes → Option (List SignedRegistryEntry)
  | [] => some []
  | f :: fs =>
      match deserializeRegistryEntry f, decodeFrames fs with
      | some e, some es => some (e :: es)
      | _, _ => none

instance {ε α : Type} [DecidableEq ε] [DecidableEq α] : DecidableEq (Except ε α)
  | .error x, .error y => decidable_of_iff (x = y) (by simp)
  | .ok x, .ok y => decidable_of_iff (x = y) (by simp)
  | .error _, .ok _ => isFalse (by simp)
  | .ok _, .error _ => isFalse (by simp)

/-! ## Concrete evaluation instances

A concrete, executable key/signature adapter and sample portal data, used
to evaluate the parameterised protocol on closed inputs.  Like Ed25519 the
adapter is deterministic; verification exactly inverts signing. -/

def toyCrypto : RegistryCrypto where
  createKeyPair seed := { publicKey := 237 :: seed.take 32 }
  sign kp data revision := kp.publicKey ++ data ++ [revision % 256]
  verify e := decide (e.signature = e.pk ++ e.data ++ [e.revision % 256])

def toyKp : KeyPairEd25519 := { publicKey := [237, 1] }

def toyTarget : Bytes := [5, 6]

/-- A portal entry for `toyKp` already holding `toyTarget`, at revision 1. -/
def toyEntryA : SignedRegistryEntry :=
  { pk := [237, 1], revision := 1, data := [5, 6], signature := [237, 1, 5, 6, 1] }

/-- A portal entry for `toyKp` holding different data, at revision 0. -/
def toyEntryB : SignedRegistryEntry :=
  { pk := [237, 1], revision := 0, data := [9], signature := [237, 1, 9, 0] }

/-- A portal entry owned by a key other than `toyKp`. -/
def toyEntryC : SignedRegistryEntry :=
  { pk := [237, 2], revision := 0, data := [9], signature := [237, 2, 9, 0] }

/-- An entry whose signature fails verification. -/
def toyEntryBad : SignedRegistryEntry :=
  { pk := [237, 1], revision := 0, data := [9], signature := [3] }

/-- A structurally valid portal body whose entry fails verification. -/
def toyBodyBad : RegistrySetRequest := encodeRegistryFields toyEntryBad

def toyRespA : GetRegistryResult := .ok (encodeRegistryFields toyEntryA)

def toyRespB : GetRegistryResult := .ok (encodeRegistryFields toyEntryB)

def toyRespC : GetRegistryResult := .ok (encodeRegistryFields toyEntryC)

/-! ## General lemmas about the protocol -/

/-- The operation `getEntry` performs exactly one network call: the GET of the base64url-
encoded public key. -/
theorem getEntry_calls (c : RegistryCrypto) (pk : Bytes) (resp : GetRegistryResult) :
    (getEntry c pk resp).2 = [NetCall.get (base64urlEncode pk)] := by
  unfold getEntry
  rcases resp with body | status
  · dsimp only
    rcases decodeRegistryFields body with _ | e
    · rfl
    · dsimp only
      split <;> rfl
  · dsimp only
    split <;> rfl

/-! ## Claims -/

/-- C2: a signed registry entry whose signature does not verify against its
own public key makes `publishEntry` fail with the `InvalidEntry` validation
error, and no network call is performed — the portal's write endpoint is
never contacted. -/
theorem C2_publish_precondition (c : RegistryCrypto) (e : SignedRegistryEntry)
    (h : c.verify e = false) :
    (publishEntry c e).1 = .error .invalidEntry ∧ (publishEntry c e).2 = [] := by
  unfold publishEntry
  rw [h]
  exact ⟨rfl, rfl⟩

theorem C2_publish_precondition_witness :
    toyCrypto.verify toyEntryBad = false ∧
      (publishEntry toyCrypto toyEntryBad).1 = .error .invalidEntry ∧
      (publishEntry toyCrypto toyEntryBad).2 = [] := by
  exact ⟨by decide, C2_publish_precondition toyCrypto toyEntryBad (by decide)⟩

/-- C5: a 404 from the portal's read endpoint makes `getEntry` return the
absent value rather than fail; a `createEntry` observing that absent result
signs and publishes an entry at the caller-supplied initial revision
(default 0) with the target payload as data, and returns it. -/
theorem C5_absent_entry_bootstrap (c : RegistryCrypto) (sk : Bytes ⊕ KeyPairEd25519)
    (targetData : Bytes) (r : Nat)
    (hsound : c.verify (signRegistryEntry c (resolveKeyPair c sk) targetData r) = true) :
    (getEntry c (resolveKeyPair c sk).publicKey (.err (some 404))).1 = .ok none ∧
    (createEntry c sk targetData r (.err (some 404))).1 =
      .ok (signRegistryEntry c (resolveKeyPair c sk) targetData r) ∧
    (signRegistryEntry c (resolveKeyPair c sk) targetData r).revision = r ∧
    (signRegistryEntry c (resolveKeyPair c sk) targetData r).data = targetData ∧
    NetCall.post (encodeRegistryFields (signRegistryEntry c (resolveKeyPair c sk) targetData r)) ∈
      (createEntry c sk targetData r (.err (some 404))).2 := by
  refine ⟨rfl, ?_⟩
  have hpub : publishEntry c (signRegistryEntry c (resolveKeyPair c sk) targetData r) =
      (.ok (), [NetCall.post (encodeRegistryFields
        (signRegistryEntry c (resolveKeyPair c sk) targetData r))]) := by
    unfold publishEntry
    rw [hsound]
    rfl
  have hcr : createEntry c sk targetData r (.err (some 404)) =
      (.ok (signRegistryEntry c (resolveKeyPair c sk) targetData r),
        [NetCall.get (base64urlEncode (resolveKeyPair c sk).publicKey),
         NetCall.post (encodeRegistryFields
           (signRegistryEntry c (resolveKeyPair c sk) targetData r))]) := by
    unfold createEntry
    dsimp only
    rw [show getEntry c (resolveKeyPair c sk).publicKey (.err (some 404)) =
        (.ok none, [NetCall.get (base64urlEncode (resolveKeyPair c sk).publicKey)]) from rfl]
    dsimp only
    rw [hpub]
    rfl
  rw [hcr]
  exact ⟨rfl, rfl, rfl, by simp⟩

theorem C5_absent_entry_bootstrap_witness :
    toyCrypto.verify (signRegistryEntry toyCrypto toyKp toyTarget 0) = true ∧
      (createEntry toyCrypto (.inr toyKp) toyTarget 0 (.err (some 404))).1 =
        .ok (signRegistryEntry toyCrypto toyKp toyTarget 0) := by
  exact ⟨by decide,
    (C5_absent_entry_bootstrap toyCrypto (.inr toyKp) toyTarget 0 (by decide)).2.1⟩

/-- C6: a portal response that decodes into a structurally valid signed
entry failing signature verification makes `getEntry` fail with
`InvalidEntry`; the entry is never surfaced as a successful result, and the
failure is distinct from the not-found (absent) outcome. -/
theorem C6_invalid_entry_rejected (c : RegistryCrypto) (pk : Bytes)
    (body : RegistrySetRequest) (e : SignedRegistryEntry)
    (hdec : decodeRegistryFields body = some e) (hver : c.verify e = false) :
    (getEntry c pk (.ok body)).1 = .error .invalidEntry ∧
    ∀ x, (getEntry c pk (.ok body)).1 ≠ .ok x := by
  have h : getEntry c pk (.ok body) =
      (.error .invalidEntry, [NetCall.get (base64urlEncode pk)]) := by
    unfold getEntry
    dsimp only
    rw [hdec]
    dsimp only
    rw [hver]
    simp
  rw [h]
  exact ⟨rfl, fun x hx => by simp at hx⟩

theorem C6_invalid_entry_rejected_witness :
    (∃ e, decodeRegistryFields toyBodyBad = some e ∧ toyCrypto.verify e = false) ∧
      (getEntry toyCrypto toyKp.publicKey (.ok toyBodyBad)).1 = .error .invalidEntry := by
  refine ⟨⟨_, rfl, by decide⟩,
    (C6_invalid_entry_rejected toyCrypto toyKp.publicKey toyBodyBad _ rfl (by decide)).1⟩

/-- C7: the transport/text field codec round-trips: decoding the padding-
free URL-safe base64 text of any byte string returns the byte string, and
decoding the `{pk, revision, data, signature}` text form produced by
`publishEntry`'s field encoding via `getEntry`'s field decoding returns an
entry equal in all fields to the original. -/
theorem C7_text_codec_roundtrip (x : Bytes) (e : SignedRegistryEntry)
    (hx : ValidBytes x) (he : e.Valid) :
    base64urlDecode (base64urlEncode x) = some x ∧
    decodeRegistryFields (encodeRegistryFields e) = some e := by
  refine ⟨base64url_decode_encode x hx, ?_⟩
  obtain ⟨hpk, hdata, hsig⟩ := he
  unfold decodeRegistryFields encodeRegistryFields
  rw [base64url_decode_encode _ hpk, base64url_decode_encode _ hdata,
    base64url_decode_encode _ hsig]

theorem C7_text_codec_roundtrip_witness :
    ValidBytes [0, 255, 7] ∧ toyEntryA.Valid ∧
      base64urlDecode (base64urlEncode [0, 255, 7]) = some [0, 255, 7] ∧
      decodeRegistryFields (encodeRegistryFields toyEntryA) = some toyEntryA := by
  refine ⟨by decide, by decide, C7_text_codec_roundtrip [0, 255, 7] toyEntryA (by decide) (by decide)⟩

/-- C1: when `getEntry` returns an existing entry with revision `N`, owned
by the caller's derived public key, whose data differs from the target
payload, `createEntry` signs an entry with revision `N + 1` and data equal
to the target payload, publishes it, and returns it. -/
theorem C1_monotonic_revision (c : RegistryCrypto) (sk : Bytes ⊕ KeyPairEd25519)
    (targetData : Bytes) (r : Nat) (resp : GetRegistryResult) (e : SignedRegistryEntry)
    (hget : (getEntry c (resolveKeyPair c sk).publicKey resp).1 = .ok (some e))
    (hpk : e.pk = (resolveKeyPair c sk).publicKey)
    (hdiff : e.data ≠ targetData)
    (hsound : c.verify
      (signRegistryEntry c (resolveKeyPair c sk) targetData (e.revision + 1)) = true) :
    (createEntry c sk targetData r resp).1 =
      .ok (signRegistryEntry c (resolveKeyPair c sk) targetData (e.revision + 1)) ∧
    (signRegistryEntry c (resolveKeyPair c sk) targetData (e.revision + 1)).revision
      = e.revision + 1 ∧
    (signRegistryEntry c (resolveKeyPair c sk) targetData (e.revision + 1)).data
      = targetData ∧
    NetCall.post (encodeRegistryFields
      (signRegistryEntry c (resolveKeyPair c sk) targetData (e.revision + 1))) ∈
      (createEntry c sk targetData r resp).2 := by
  have hpair : getEntry c (resolveKeyPair c sk).publicKey resp =
      (.ok (some e), [NetCall.get (base64urlEncode (resolveKeyPair c sk).publicKey)]) :=
    Prod.ext hget (getEntry_calls c _ resp)
  have hpub : publishEntry c
      (signRegistryEntry c (resolveKeyPair c sk) targetData (e.revision + 1)) =
      (.ok (), [NetCall.post (encodeRegistryFields
        (signRegistryEntry c (resolveKeyPair c sk) targetData (e.revision + 1)))]) := by
    unfold publishEntry
    rw [hsound]
    rfl
  have hcr : createEntry c sk targetData r resp =
      (.ok (signRegistryEntry c (resolveKeyPair c sk) targetData (e.revision + 1)),
        [NetCall.get (base64urlEncode (resolveKeyPair c sk).publicKey),
         NetCall.post (encodeRegistryFields
           (signRegistryEntry c (resolveKeyPair c sk) targetData (e.revision + 1)))]) := by
    unfold createEntry
    dsimp only
    rw [hpair]
    dsimp only
    rw [if_pos hpk.symm, if_neg hdiff, hpub]
    rfl
  rw [hcr]
  exact ⟨rfl, rfl, rfl, by simp⟩

theorem C1_monotonic_revision_witness :
    (getEntry toyCrypto toyKp.publicKey toyRespB).1 = .ok (some toyEntryB) ∧
      toyEntryB.pk = toyKp.publicKey ∧ toyEntryB.data ≠ toyTarget ∧
      (createEntry toyCrypto (.inr toyKp) toyTarget 0 toyRespB).1 =
        .ok (signRegistryEntry toyCrypto toyKp toyTarget (toyEntryB.revision + 1)) := by
  exact ⟨by decide, by decide, by decide,
    (C1_monotonic_revision toyCrypto (.inr toyKp) toyTarget 0 toyRespB toyEntryB
      (by decide) (by decide) (by decide) (by decide)).1⟩

/-- C3: when `getEntry` returns an existing entry owned by the caller's
derived public key whose data already equals the target payload,
`createEntry` returns the fetched entry itself — same revision, data and
signature — and performs no publish (POST) call. -/
theorem C3_noop_idempotence (c : RegistryCrypto) (sk : Bytes ⊕ KeyPairEd25519)
    (targetData : Bytes) (r : Nat) (resp : GetRegistryResult) (e : SignedRegistryEntry)
    (hget : (getEntry c (resolveKeyPair c sk).publicKey resp).1 = .ok (some e))
    (hpk : e.pk = (resolveKeyPair c sk).publicKey)
    (hdata : e.data = targetData) :
    (createEntry c sk targetData r resp).1 = .ok e ∧
    (createEntry c sk targetData r resp).2 =
      [NetCall.get (base64urlEncode (resolveKeyPair c sk).publicKey)] ∧
    ∀ req, NetCall.post req ∉ (createEntry c sk targetData r resp).2 := by
  have hpair : getEntry c (resolveKeyPair c sk).publicKey resp =
      (.ok (some e), [NetCall.get (base64urlEncode (resolveKeyPair c sk).publicKey)]) :=
    Prod.ext hget (getEntry_calls c _ resp)
  have hcr : createEntry c sk targetData r resp =
      (.ok e, [NetCall.get (base64urlEncode (resolveKeyPair c sk).publicKey)]) := by
    unfold createEntry
    dsimp only
    rw [hpair]
    dsimp only
    rw [if_pos hpk.symm, if_pos hdata]
  rw [hcr]
  exact ⟨rfl, rfl, fun req h => by simp at h⟩

theorem C3_noop_idempotence_witness :
    (getEntry toyCrypto toyKp.publicKey toyRespA).1 = .ok (some toyEntryA) ∧
      toyEntryA.data = toyTarget ∧
      (createEntry toyCrypto (.inr toyKp) toyTarget 0 toyRespA).1 = .ok toyEntryA ∧
      (createEntry toyCrypto (.inr toyKp) toyTarget 0 toyRespA).2 =
        [NetCall.get (base64urlEncode toyKp.publicKey)] := by
  have h := C3_noop_idempotence toyCrypto (.inr toyKp) toyTarget 0 toyRespA toyEntryA
    (by decide) (by decide) (by decide)
  exact ⟨by decide, by decide, h.1, h.2.1⟩

/-- C4: when `getEntry` returns an existing entry whose owner public key
differs from the caller's derived public key, `createEntry` fails with the
`KeyMismatch` validation error and performs no publish (POST) call. -/
theorem C4_key_mismatch_rejection (c : RegistryCrypto) (sk : Bytes ⊕ KeyPairEd25519)
    (targetData : Bytes) (r : Nat) (resp : GetRegistryResult) (e : SignedRegistryEntry)
    (hget : (getEntry c (resolveKeyPair c sk).publicKey resp).1 = .ok (some e))
    (hpk : e.pk ≠ (resolveKeyPair c sk).publicKey) :
    (createEntry c sk targetData r resp).1 = .error .keyMismatch ∧
    (createEntry c sk targetData r resp).2 =
      [NetCall.get (base64urlEncode (resolveKeyPair c sk).publicKey)] ∧
    ∀ req, NetCall.post req ∉ (createEntry c sk targetData r resp).2 := by
  have hpair : getEntry c (resolveKeyPair c sk).publicKey resp =
      (.ok (some e), [NetCall.get (base64urlEncode (resolveKeyPair c sk).publicKey)]) :=
    Prod.ext hget (getEntry_calls c _ resp)
  have hcr : createEntry c sk targetData r resp =
      (.error .keyMismatch,
        [NetCall.get (base64urlEncode (resolveKeyPair c sk).publicKey)]) := by
    unfold createEntry
    dsimp only
    rw [hpair]
    dsimp only
    rw [if_neg (fun h => hpk h.symm)]
  rw [hcr]
  exact ⟨rfl, rfl, fun req h => by simp at h⟩

theorem C4_key_mismatch_rejection_witness :
    (getEntry toyCrypto toyKp.publicKey toyRespC).1 = .ok (some toyEntryC) ∧
      toyEntryC.pk ≠ toyKp.publicKey ∧
      (createEntry toyCrypto (.inr toyKp) toyTarget 0 toyRespC).1 =
        .error .keyMismatch ∧
      (createEntry toyCrypto (.inr toyKp) toyTarget 0 toyRespC).2 =
        [NetCall.get (base64urlEncode toyKp.publicKey)] := by
  have h := C4_key_mismatch_rejection toyCrypto (.inr toyKp) toyTarget 0 toyRespC toyEntryC
    (by decide) (by decide)
  exact ⟨by decide, by decide, h.1, h.2.1⟩

/-- Any present entry `getEntry` succeeds with has passed signature
verification. -/
theorem getEntry_ok_verify (c : RegistryCrypto) (pk : Bytes) (resp : GetRegistryResult)
    (e : SignedRegistryEntry) (h : (getEntry c pk resp).1 = .ok (some e)) :
    c.verify e = true := by
  unfold getEntry at h
  rcases resp with body | status
  · dsimp only at h
    rcases hdec : decodeRegistryFields body with _ | e'
    · rw [hdec] at h
      simp at h
    · rw [hdec] at h
      dsimp only at h
      by_cases hv : c.verify e' = true
      · rw [if_pos hv] at h
        simp only [Except.ok.injEq, Option.some.injEq] at h
        rw [← h]
        exact hv
      · rw [if_neg hv] at h
        simp at h
  · dsimp only at h
    by_cases h4 : status = some 404
    · rw [if_pos h4] at h
      simp at h
    · rw [if_neg h4] at h
      simp at h

/-- Any entry `publishEntry` succeeds on has passed signature
verification. -/
theorem publishEntry_ok_verify (c : RegistryCrypto) (e : SignedRegistryEntry)
    (calls : List NetCall) (h : publishEntry c e = (.ok (), calls)) :
    c.verify e = true := by
  unfold publishEntry at h
  by_cases hv : c.verify e = true
  · exact hv
  · rw [if_neg hv] at h
    simp at h

/-- C10: every signed registry entry surfaced to the caller verifies: each
present entry returned by `getEntry` and each entry returned by
`createEntry` — on the no-op path because the fetched entry was already
verified, on the publish path because it passed `publishEntry`'s check —
verifies against its own public key. -/
theorem C10_surfaced_entries_verify (c : RegistryCrypto) (pk : Bytes)
    (sk : Bytes ⊕ KeyPairEd25519) (targetData : Bytes) (r : Nat)
    (resp : GetRegistryResult) :
    (∀ e, (getEntry c pk resp).1 = .ok (some e) → c.verify e = true) ∧
    (∀ e, (createEntry c sk targetData r resp).1 = .ok e → c.verify e = true) := by
  refine ⟨fun e h => getEntry_ok_verify c pk resp e h, fun e h => ?_⟩
  unfold createEntry at h
  dsimp only at h
  rcases hg : getEntry c (resolveKeyPair c sk).publicKey resp with ⟨res, getCalls⟩
  rw [hg] at h
  rcases res with err | fetched
  · simp at h
  · rcases fetched with _ | entry
    · dsimp only at h
      rcases hp : publishEntry c (signRegistryEntry c (resolveKeyPair c sk) targetData r)
        with ⟨pres, pubCalls⟩
      rw [hp] at h
      rcases pres with perr | pok
      · simp at h
      · simp only [Except.ok.injEq] at h
        rw [← h]
        exact publishEntry_ok_verify c _ pubCalls hp
    · dsimp only at h
      by_cases hpk : (resolveKeyPair c sk).publicKey = entry.pk
      · rw [if_pos hpk] at h
        by_cases hdata : entry.data = targetData
        · rw [if_pos hdata] at h
          simp only [Except.ok.injEq] at h
          rw [← h]
          exact getEntry_ok_verify c (resolveKeyPair c sk).publicKey resp entry
            (by rw [hg])
        · rw [if_neg hdata] at h
          rcases hp : publishEntry c
              (signRegistryEntry c (resolveKeyPair c sk) targetData (entry.revision + 1))
            with ⟨pres, pubCalls⟩
          rw [hp] at h
          rcases pres with perr | pok
          · simp at h
          · simp only [Except.ok.injEq] at h
            rw [← h]
            exact publishEntry_ok_verify c _ pubCalls hp
      · rw [if_neg hpk] at h
        simp at h

theorem C10_surfaced_entries_verify_witness :
    (getEntry toyCrypto toyKp.publicKey toyRespA).1 = .ok (some toyEntryA) ∧
      toyCrypto.verify toyEntryA = true ∧
      (createEntry toyCrypto (.inr toyKp) toyTarget 0 toyRespB).1 =
        .ok (signRegistryEntry toyCrypto toyKp toyTarget 1) ∧
      toyCrypto.verify (signRegistryEntry toyCrypto toyKp toyTarget 1) = true := by
  have h := C10_surfaced_entries_verify toyCrypto toyKp.publicKey (.inr toyKp)
    toyTarget 0 toyRespB
  exact ⟨by decide,
    (C10_surfaced_entries_verify toyCrypto toyKp.publicKey (.inr toyKp)
      toyTarget 0 toyRespA).1 toyEntryA (by decide),
    by decide, h.2 (signRegistryEntry toyCrypto toyKp toyTarget 1) (by decide)⟩

/-- C8: for a sequence of `N` binary frames arriving after `listen(cb)` is
registered, each of which the binary entry codec accepts, the callback is
invoked exactly `N` times, in arrival order, the `i`-th invocation receiving
the entry decoded from the `i`-th frame. -/
theorem C8_subscription_delivery_order {α : Type} (cb : SignedRegistryEntry → α)
    (frames : List Bytes) (entries : List SignedRegistryEntry)
    (hdec : decodeFrames frames = some entries) :
    dispatchMessages (listenHandler cb) frames = some (entries.map cb) ∧
    entries.length = frames.length := by
  induction frames generalizing entries with
  | nil =>
      unfold decodeFrames at hdec
      simp only [Option.some.injEq] at hdec
      rw [← hdec]
      exact ⟨rfl, rfl⟩
  | cons f fs ih =>
      unfold decodeFrames at hdec
      rcases hf : deserializeRegistryEntry f with _ | e
      · rw [hf] at hdec
        simp at hdec
      · rw [hf] at hdec
        rcases hfs : decodeFrames fs with _ | es
        · rw [hfs] at hdec
          simp at hdec
        · rw [hfs] at hdec
          simp only [Option.some.injEq] at hdec
          obtain ⟨h1, h2⟩ := ih es hfs
          rw [← hdec]
          constructor
          · have hl : listenHandler cb f = some (cb e) := by
              unfold listenHandler
              rw [hf]
              rfl
            unfold dispatchMessages
            rw [hl, h1]
            rfl
          · simp [h2]

theorem C8_subscription_delivery_order_witness :
    (∃ es, decodeFrames
        [7 :: List.replicate 33 1 ++ [5, 2, 8, 9] ++ List.replicate 64 3,
         7 :: List.replicate 33 1 ++ [6, 0] ++ List.replicate 64 4] = some es ∧
      dispatchMessages (listenHandler id)
        [7 :: List.replicate 33 1 ++ [5, 2, 8, 9] ++ List.replicate 64 3,
         7 :: List.replicate 33 1 ++ [6, 0] ++ List.replicate 64 4] = some (es.map id) ∧
      es.length = 2) := by
  refine ⟨[{ pk := List.replicate 33 1, revision := 5, data := [8, 9],
             signature := List.replicate 64 3 },
           { pk := List.replicate 33 1, revision := 6, data := [],
             signature := List.replicate 64 4 }], by decide, ?_, by decide⟩
  exact (C8_subscription_delivery_order id _ _ (by decide)).1

/-- C9 as stated is false: the no-op outcome and the newly-published
outcome of `createEntry` are not observably distinguishable from the return
value.  With the portal already holding the target data at revision 1, the
no-op path returns `toyEntryA` without publishing; with the portal holding
different data at revision 0, the publish path signs, publishes and returns
a value byte-for-byte equal to `toyEntryA` (the adapter, like Ed25519, is
deterministic).  The two return values coincide; only the network traces
differ. -/
theorem C9_counterexample :
    (createEntry toyCrypto (.inr toyKp) toyTarget 0 toyRespA).1 =
      (createEntry toyCrypto (.inr toyKp) toyTarget 0 toyRespB).1 ∧
    (createEntry toyCrypto (.inr toyKp) toyTarget 0 toyRespA).1 = .ok toyEntryA ∧
    (createEntry toyCrypto (.inr toyKp) toyTarget 0 toyRespA).2 =
      [NetCall.get (base64urlEncode toyKp.publicKey)] ∧
    NetCall.post (encodeRegistryFields toyEntryA) ∈
      (createEntry toyCrypto (.inr toyKp) toyTarget 0 toyRespB).2 := by
  refine ⟨by decide, by decide, by decide, by decide⟩

/-- C9 amended: the return value of `createEntry` does not let the caller
tell the no-op outcome apart from the newly-published outcome — there are
two executions, one via the idempotent no-op path (no publish call) and one
via the publish path (a publish call), with equal return values; the two
outcomes are distinguishable only by the network calls performed. -/
theorem C9_amended_not_distinguishable :
    ∃ (c : RegistryCrypto) (sk : Bytes ⊕ KeyPairEd25519) (d : Bytes) (r : Nat)
      (respNoop respPub : GetRegistryResult),
      (createEntry c sk d r respNoop).1 = (createEntry c sk d r respPub).1 ∧
      (∀ req, NetCall.post req ∉ (createEntry c sk d r respNoop).2) ∧
      (∃ req, NetCall.post req ∈ (createEntry c sk d r respPub).2) := by
  refine ⟨toyCrypto, .inr toyKp, toyTarget, 0, toyRespA, toyRespB, by decide, ?_, ?_⟩
  · intro req h
    rw [show (createEntry toyCrypto (.inr toyKp) toyTarget 0 toyRespA).2 =
        [NetCall.get (base64urlEncode toyKp.publicKey)] from by decide] at h
    simp at h
  · exact ⟨encodeRegistryFields toyEntryA, by decide⟩

end S5
